import Mathlib

/-!
Verification of the segmented-transfer and pointer-resolution subsystem of the
PrivShare repository: a shallow embedding in Lean 4 of the share-code protocol
(`src/lib/ipfs-mapping.ts`), the 0G storage service (`ZgStorageService`), and
the download/preview hooks (`src/hooks/useFileDownload.ts`,
`src/hooks/useFilePreview.ts`), together with theorems settling the frozen
claims about them.

External collaborators (0G SDK, Pinata, localStorage, the cipher) are modelled
as environments of outcomes; every branch taken on those outcomes follows the
TypeScript sources.  JavaScript thrown values are modelled by `JsVal`; `try`
and `catch` become `Except` plumbing; JavaScript truthiness of optional
strings/numbers is modelled explicitly (`jsTruthy`, `jsOr`, `jsOrNat`).
-/

set_option autoImplicit false

namespace PrivShare

/-! ## JavaScript value helpers -/

/-- A thrown JavaScript value: either an `Error` instance together with its
`message` string, or a non-`Error` value. -/
inductive JsVal where
  | err (msg : String)
  | nonErr
deriving DecidableEq, Repr

instance {ε α : Type} [DecidableEq ε] [DecidableEq α] : DecidableEq (Except ε α) :=
  fun x y =>
    match x, y with
    | .ok a, .ok b =>
      if h : a = b then isTrue (by rw [h]) else isFalse fun he => h (Except.ok.inj he)
    | .error a, .error b =>
      if h : a = b then isTrue (by rw [h]) else isFalse fun he => h (Except.error.inj he)
    | .ok _, .error _ => isFalse fun he => Except.noConfusion he
    | .error _, .ok _ => isFalse fun he => Except.noConfusion he

/-- `error instanceof Error ? error.message : 'Unknown error'` — the message
extraction used by both catch-all handlers of `ZgStorageService`. -/
def jsMessage : JsVal → String
  | .err m => m
  | .nonErr => "Unknown error"

/-- JavaScript truthiness of an optional string (`!!x` / `x || y` tests):
`undefined` and the empty string are falsy. -/
def jsTruthy : Option String → Bool
  | none => false
  | some s => !s.isEmpty

/-- `x || fb` on an optional string with JavaScript falsiness. -/
def jsOr (x : Option String) (fb : String) : String :=
  match x with
  | none => fb
  | some s => if s.isEmpty then fb else s

/-- `x || fb` on an optional number with JavaScript falsiness (`0` is falsy). -/
def jsOrNat (x : Option Nat) (fb : Nat) : Nat :=
  match x with
  | none => fb
  | some n => if n = 0 then fb else n

/-! ## Share-code grammar (`src/lib/ipfs-mapping.ts`)

`validateShareCode` tests the regular expression
`^privshare:\/\/0g-([a-z0-9]{4}-){3}[a-z0-9]{4}$` (both copies of the module
build exactly this pattern; the newer copy first returns `false` for a falsy
code value, which for a string argument means the empty string). -/

/-- The `[a-z0-9]` character class of the share-code regular expression. -/
def lowerAlnum (c : Char) : Bool :=
  (97 ≤ c.toNat && c.toNat ≤ 122) || (48 ≤ c.toNat && c.toNat ≤ 57)

/-- `SHARE_CODE_PREFIX = "privshare://0g-"`, as a character list. -/
def shareCodeHead : List Char := "privshare://0g-".data

/-- Anchored literal match: consumes the expected characters at the head of
the input and returns the remainder, or fails. -/
def stripHead : List Char → List Char → Option (List Char)
  | [], cs => some cs
  | _ :: _, [] => none
  | p :: ps, c :: cs => if c = p then stripHead ps cs else none

/-- One `[a-z0-9]{4}` group of the share-code body. -/
def group4 : List Char → Bool
  | [a, b, c, d] => lowerAlnum a && lowerAlnum b && lowerAlnum c && lowerAlnum d
  | _ => false

/-- Matches `([a-z0-9]{4}-){n}[a-z0-9]{4}` against a character list (`n`
dash-terminated groups followed by one final group, consuming the whole
list). -/
def groupsThen : Nat → List Char → Bool
  | 0, cs => group4 cs
  | n + 1, a :: b :: c :: d :: e :: rest =>
      lowerAlnum a && lowerAlnum b && lowerAlnum c && lowerAlnum d && (e == '-') &&
        groupsThen n rest
  | _ + 1, _ => false

/-- `validateShareCode` from `src/lib/ipfs-mapping.ts`: the anchored regular
expression `^privshare:\/\/0g-([a-z0-9]{4}-){3}[a-z0-9]{4}$`, preceded by the
falsy-argument guard of the newer copy. -/
def validateShareCode (code : String) : Bool :=
  if code.data.isEmpty then false
  else
    match stripHead shareCodeHead code.data with
    | some rest => groupsThen 3 rest
    | none => false

/-- The specification-side grammar of one body group: exactly four characters,
all lowercase alphanumeric. -/
def GoodGroup (g : List Char) : Prop :=
  g.length = 4 ∧ ∀ c ∈ g, lowerAlnum c = true

/-- The specification-side grammar of a whole share code: the fixed head
followed by four good groups joined by dashes. -/
def GoodShareCode (s : String) : Prop :=
  ∃ g₁ g₂ g₃ g₄ : List Char,
    GoodGroup g₁ ∧ GoodGroup g₂ ∧ GoodGroup g₃ ∧ GoodGroup g₄ ∧
    s.data = shareCodeHead ++ (g₁ ++ '-' :: (g₂ ++ '-' :: (g₃ ++ '-' :: g₄)))

/-! ## Share-code generation (`src/lib/ipfs-mapping.ts`)

`generateRandomShareCode` (older copy) draws 16 characters from a 36-character
alphabet, splits them with `/.{1,4}/g` and joins with dashes;
`generateShareCode` (newer copy) draws four 4-character groups and joins them.
The `Math.random()` source is modelled as a stream `r` of chosen indices below
36 (`Math.floor(Math.random() * chars.length)` always lands in `[0, 35]`). -/

/-- `SHARE_CODE_ALPHABET` / `chars`: the 36-character generation alphabet. -/
def shareCodeAlphabet : List Char := "abcdefghijklmnopqrstuvwxyz0123456789".data

/-- `chars.charAt(idx)`: one draw from the alphabet at a chosen index. -/
def drawChar (i : Fin 36) : Char :=
  shareCodeAlphabet.get ⟨i.val, lt_of_lt_of_eq i.isLt (by decide)⟩

/-- The 16 characters accumulated by `generateRandomShareCode`'s loop, the
`i`-th iteration using the `i`-th random draw. -/
def rawDraws (r : Nat → Fin 36) : List Char :=
  [drawChar (r 0), drawChar (r 1), drawChar (r 2), drawChar (r 3),
   drawChar (r 4), drawChar (r 5), drawChar (r 6), drawChar (r 7),
   drawChar (r 8), drawChar (r 9), drawChar (r 10), drawChar (r 11),
   drawChar (r 12), drawChar (r 13), drawChar (r 14), drawChar (r 15)]

/-- `result.match(/.{1,4}/g)?.join('-')`: greedy split into runs of at most
four characters, joined with dashes. -/
def dashJoin4 : List Char → List Char
  | a :: b :: c :: d :: e :: rest => a :: b :: c :: d :: '-' :: dashJoin4 (e :: rest)
  | l => l

/-- `generateRandomShareCode`: 16 draws, dash-grouped, behind
`privshare://0g-` (built as `privshare://` ++ `0g-` ++ body in the source). -/
def generateRandomShareCode (r : Nat → Fin 36) : String :=
  ⟨"privshare://".data ++ ("0g-".data ++ dashJoin4 (rawDraws r))⟩

/-- `randomGroup`: four draws from the alphabet; `base` is the offset of this
group's draws in the random stream. -/
def randomGroup (r : Nat → Fin 36) (base : Nat) : List Char :=
  [drawChar (r base), drawChar (r (base + 1)),
   drawChar (r (base + 2)), drawChar (r (base + 3))]

/-- `Array.from({length: 4}, () => randomGroup()).join("-")`. -/
def joinDash : List (List Char) → List Char
  | [] => []
  | [g] => g
  | g :: gs => g ++ '-' :: joinDash gs

/-- `generateShareCode` from the newer copy: the fixed head followed by four
random groups joined with dashes. -/
def generateShareCode (r : Nat → Fin 36) : String :=
  ⟨shareCodeHead ++
    joinDash [randomGroup r 0, randomGroup r 4, randomGroup r 8, randomGroup r 12]⟩

/-! ## Pointer records and the mapping layer (`src/lib/ipfs-mapping.ts`)

Collaborator outcomes (Pinata HTTP calls, the 0G upload, localStorage) are
supplied as environments; the functions below follow the TypeScript bodies
branch by branch and additionally report the network requests they issue. -/

/-- `MappingRecord` of the newer module copy: the pointer data cached locally
and persisted to 0G.  Note it has no stored encryption-key field. -/
structure MappingRecord where
  rootHash : String
  iv : Option String := none
  fileName : Option String := none
  fileSize : Option Nat := none
  mimeType : Option String := none
  uploader : Option String := none
  uploadTime : Option Nat := none
  txHash : Option String := none
deriving DecidableEq, Repr

/-- Network requests the mapping layer can issue. -/
inductive NetOp where
  | pinataPin
  | pinataSearch
  | ipfsGateway (hash : String)
  | zgUpload
deriving DecidableEq, Repr

/-- `UploadResult` of `0g-storage.ts`. -/
structure UploadResult where
  success : Bool
  txHash : String
  rootHash : String
  error : Option String := none
deriving DecidableEq, Repr

/-- `getMappingFrom0G`: validate the code, then try the localStorage cache,
else throw `Mapping record not found.`.  The body issues no network request,
so every branch carries an empty request list. -/
def getMappingFrom0G (cache : String → Option MappingRecord) (shareCode : String) :
    Except JsVal MappingRecord × List NetOp :=
  if validateShareCode shareCode = false then
    (.error (.err "Invalid share code format"), [])
  else
    match cache shareCode with
    | some r => (.ok r, [])
    | none => (.error (.err "Mapping record not found."), [])

/-- `storeMappingTo0G`: validate, upload the serialized record through
`zgStorage.uploadFile` (whose result is the environment value `up`;
`uploadFile` never throws), then best-effort write the local cache entry.
Returns the `{rootHash, txHash}` result, the network requests issued, and the
cache write performed (key and record), if any. -/
def storeMappingTo0G (up : UploadResult) (shareCode : String) (record : MappingRecord) :
    Except JsVal (String × String) × List NetOp × Option (String × MappingRecord) :=
  if validateShareCode shareCode = false then
    (.error (.err "Invalid share code format"), [], none)
  else
    let cached : MappingRecord :=
      { record with txHash := if up.txHash.isEmpty then record.txHash else some up.txHash }
    (.ok (up.rootHash, up.txHash), [.zgUpload], some (shareCode, cached))

/-- Outcome of one Pinata / IPFS-gateway HTTP call: the fetch threw, the
response was not `ok` (carrying `status statusText`), or it succeeded. -/
inductive HttpOutcome (α : Type) where
  | threw (e : JsVal)
  | notOk (status : String)
  | ok (payload : α)

/-- The metadata object stored on IPFS by `storeMappingToIPFS` and read back
by `getMappingFromIPFS` (restricted to the fields the reader consumes). -/
structure IPFSMapping where
  shareCode : String
  rootHash : String
  fileName : Option String := none
  fileSize : Option Nat := none
  mimeType : Option String := none
  isEncrypted : Option Bool := none
  encryptionKey : Option String := none
  iv : Option String := none
  uploader : Option String := none
  uploadTime : Option Nat := none
  txHash : Option String := none
  provider : Option String := none
deriving DecidableEq, Repr

/-- The backward-compatibility shape returned by `getMappingFromIPFS`. -/
structure ResolvedMapping where
  shareCode : String
  pieceCid : String
  fileName : Option String
  fileSize : Option Nat
  mimeType : Option String
  isEncrypted : Option Bool
  encryptionKey : Option String
  iv : Option String
  uploader : Option String
  uploadTime : Option Nat
  rootHash : String
  txHash : Option String
  provider : Option String
deriving DecidableEq, Repr

/-- The field mapping `getMappingFromIPFS` applies to the gateway payload
(`rootHash` doubles as `pieceCid` for backward compatibility). -/
def toResolved (m : IPFSMapping) : ResolvedMapping :=
  { shareCode := m.shareCode
    pieceCid := m.rootHash
    fileName := m.fileName
    fileSize := m.fileSize
    mimeType := m.mimeType
    isEncrypted := m.isEncrypted
    encryptionKey := m.encryptionKey
    iv := m.iv
    uploader := m.uploader
    uploadTime := m.uploadTime
    rootHash := m.rootHash
    txHash := m.txHash
    provider := m.provider }

/-- Environment of Pinata collaborator outcomes for one call: whether API
credentials are configured, the `pinJSONToIPFS` outcome (payload: the returned
`IpfsHash`), the `pinList` search outcome (payload: the rows'
`ipfs_pin_hash` values), and the gateway fetch outcome per hash. -/
structure PinataEnv where
  configPresent : Bool
  pin : HttpOutcome String
  search : HttpOutcome (List String)
  gateway : String → HttpOutcome IPFSMapping

/-- `storeMappingToIPFS` (older copy): build the metadata object and POST it
to Pinata.  The body performs no share-code validation; its catch rethrows.
Returns `{ipfsHash, shareCode, rootHash}` and the requests issued. -/
def storeMappingToIPFS (env : PinataEnv) (shareCode rootHash : String) :
    Except JsVal (String × String × String) × List NetOp :=
  if env.configPresent = false then
    (.error (.err "Pinata configuration missing"), [])
  else
    match env.pin with
    | .threw e => (.error e, [.pinataPin])
    | .notOk status => (.error (.err ("Pinata API error: " ++ status)), [.pinataPin])
    | .ok ipfsHash => (.ok (ipfsHash, shareCode, rootHash), [.pinataPin])

/-- `getMappingFromIPFS` (older copy): search Pinata by share code, then fetch
the first row's payload from the IPFS gateway; every failure path is caught
and surfaces as `null` (`none`), never as a thrown error. -/
def getMappingFromIPFS (env : PinataEnv) (shareCode : String) :
    Option ResolvedMapping × List NetOp :=
  if env.configPresent = false then (none, [])
  else
    match env.search with
    | .threw _ => (none, [.pinataSearch])
    | .notOk _ => (none, [.pinataSearch])
    | .ok [] => (none, [.pinataSearch])
    | .ok (h :: _) =>
      match env.gateway h with
      | .threw _ => (none, [.pinataSearch, .ipfsGateway h])
      | .notOk _ => (none, [.pinataSearch, .ipfsGateway h])
      | .ok m => (some (toResolved m), [.pinataSearch, .ipfsGateway h])

/-- The searchable-index collaborator is unreachable: credentials missing or
the search request does not come back `ok`. -/
def NoIndex (env : PinataEnv) : Prop :=
  env.configPresent = false ∨ (∃ e, env.search = .threw e) ∨ ∃ s, env.search = .notOk s

/-! ## 0G storage service (`0g-storage.ts`, class `ZgStorageService`)

Node endpoints are identified by their index in the indexer's location list;
SDK and node call outcomes are supplied by a `ZgEnv` environment. -/

/-- `DownloadResult` of `0g-storage.ts`; file bytes are modelled as `List
Nat`. -/
structure DownloadResult where
  success : Bool
  data : Option (List Nat) := none
  error : Option String := none
deriving DecidableEq, Repr

/-- The transaction metadata of a stored file (`fileInfo.tx`). -/
structure TxInfo where
  seq : Nat
  size : Nat
  startEntryIndex : Nat
deriving DecidableEq, Repr

/-- The per-file info a storage node reports (`getFileInfo` / `queryFile`). -/
structure FileInfo where
  finalized : Bool
  tx : Option TxInfo
  uploadedSegNum : Option Nat := none
  numSegments : Option Nat := none
deriving DecidableEq, Repr

/-- Environment of 0G SDK / storage-node outcomes for one download. -/
structure ZgEnv where
  sdkLoad : Except JsVal Unit
  getFileLocations : Except JsVal (List String)
  getFileInfo : Nat → Except JsVal (Option FileInfo)
  queryFile : Except JsVal (Option FileInfo × Option String)
  getShardConfig : Nat → Except JsVal Unit
  downloadTask : Nat → Except JsVal (Option (List Nat))
  downloadSegment : Nat → Nat → Nat → Except JsVal (Option (List Nat))

/-- `initializeSDK`: load the SDK; any failure is rethrown as
`Failed to initialize 0G Storage SDK: <message>`. -/
def initializeSDK (load : Except JsVal Unit) : Except JsVal Unit :=
  match load with
  | .ok _ => .ok ()
  | .error e => .error (.err ("Failed to initialize 0G Storage SDK: " ++ jsMessage e))

/-- `DEFAULT_CHUNK_SIZE = 256` bytes (`0g-storage.ts` and
`ZG_STORAGE_CONFIG.chunkSize`). -/
def DEFAULT_CHUNK_SIZE : Nat := 256

/-- `DEFAULT_SEGMENT_MAX_CHUNKS = 1024` (`ZG_STORAGE_CONFIG.maxChunksPerSegment`). -/
def DEFAULT_SEGMENT_MAX_CHUNKS : Nat := 1024

/-- `numChunks = Math.ceil(fileInfo.tx.size / DEFAULT_CHUNK_SIZE)`, in exact
natural-number arithmetic. -/
def numChunks (size : Nat) : Nat :=
  (size + DEFAULT_CHUNK_SIZE - 1) / DEFAULT_CHUNK_SIZE

/-- `startSegmentIndex = Math.floor(startEntryIndex / DEFAULT_SEGMENT_MAX_CHUNKS)`. -/
def startSegmentIndex (startEntryIndex : Nat) : Nat :=
  startEntryIndex / DEFAULT_SEGMENT_MAX_CHUNKS

/-- `endSegmentIndex = Math.floor((startEntryIndex + numChunks - 1) / DEFAULT_SEGMENT_MAX_CHUNKS)`. -/
def endSegmentIndex (startEntryIndex size : Nat) : Nat :=
  (startEntryIndex + numChunks size - 1) / DEFAULT_SEGMENT_MAX_CHUNKS

/-- `numTasks = endSegmentIndex - startSegmentIndex + 1`. -/
def numTasks (startEntryIndex size : Nat) : Nat :=
  endSegmentIndex startEntryIndex size - startSegmentIndex startEntryIndex + 1

/-- The segment index addressed by each task of the plan: task `t` fetches
segment `startSegmentIndex + t` (the downloader is given
`startSegmentIndex`/`endSegmentIndex` and the task loop runs
`taskInd = 0 .. numTasks-1`). -/
def planSegmentIndices (startEntryIndex size : Nat) : List Nat :=
  (List.range (numTasks startEntryIndex size)).map
    fun t => startSegmentIndex startEntryIndex + t

/-- The `for (const node of storageNodes) { getFileInfo ... }` loop shared by
`downloadFile` and `downloadFileDataFallback`: the first node's finalized file
info, skipping nodes that throw, return nothing, or are not finalized. -/
def findFinalized (info : Nat → Except JsVal (Option FileInfo)) :
    List Nat → Option FileInfo
  | [] => none
  | i :: rest =>
    match info i with
    | .ok (some fi) => if fi.finalized then some fi else findFinalized info rest
    | _ => findFinalized info rest

/-- The finalized-info extraction of one node's `getFileInfo` outcome (the
loop of `findFinalized` takes a node's info exactly when this is `some`). -/
def finalizedAt (o : Except JsVal (Option FileInfo)) : Option FileInfo :=
  match o with
  | .ok (some fi) => if fi.finalized then some fi else none
  | _ => none

/-- `getShardConfigs`: collect each node's shard config, skipping nodes that
throw; `null` (`none`) when no node answered. -/
def getShardConfigs (cfg : Nat → Except JsVal Unit) (nodes : List Nat) :
    Option (List Unit) :=
  let configs := nodes.filterMap fun i => (cfg i).toOption
  if configs.isEmpty then none else some configs

/-- The body of one iteration of `downloadFileData`'s task loop: a task whose
`downloadTask` call throws, reports a task error, or yields no/empty data
contributes nothing (`continue`); non-empty data is contributed. -/
def taskSegment (o : Except JsVal (Option (List Nat))) : Option (List Nat) :=
  match o with
  | .ok (some d) => if d.length > 0 then some d else none
  | _ => none

/-- Whether a task outcome contributes data to the assembly. -/
def taskHasData (o : Except JsVal (Option (List Nat))) : Bool :=
  (taskSegment o).isSome

/-- The per-task accumulation of `downloadFileData`'s loop, in task order. -/
def collectTaskSegments (outcome : Nat → Except JsVal (Option (List Nat))) (n : Nat) :
    List (List Nat) :=
  (List.range n).filterMap fun i => taskSegment (outcome i)

/-- The post-loop step shared by both download paths: throw if nothing was
collected, else concatenate the collected segments in order. -/
def finishSegments (segments : List (List Nat)) : Except JsVal (List Nat) :=
  if segments.isEmpty then .error (.err "No segments were successfully downloaded")
  else .ok segments.flatten

/-- The body of `downloadFileData`'s `try` block: locations, `queryFile`,
finalization and tx checks, shard configs, then the task loop and assembly. -/
def downloadFileDataCore (env : ZgEnv) : Except JsVal (List Nat) :=
  match initializeSDK env.sdkLoad with
  | .error e => .error e
  | .ok _ =>
    match env.getFileLocations with
    | .error e => .error e
    | .ok locations =>
      if locations.isEmpty then .error (.err "File not found on any storage node")
      else
        match env.queryFile with
        | .error e => .error e
        | .ok (fi?, queryError) =>
          match fi?, queryError with
          | some fi, none =>
            if fi.finalized = false then .error (.err "File not finalized")
            else
              match fi.tx with
              | none => .error (.err "File transaction info not available")
              | some tx =>
                match getShardConfigs env.getShardConfig (List.range locations.length) with
                | none => .error (.err "Failed to get shard configs")
                | some _ =>
                  finishSegments
                    (collectTaskSegments env.downloadTask
                      (numTasks tx.startEntryIndex tx.size))
          | _, _ =>
            .error (.err ("Failed to query file: " ++ jsOr queryError "File not found"))

/-- `downloadFileDataFallback`: direct `StorageNode` segment-range downloads.
Only the FIRST node (`storageNodes[0]`) is ever used for segment fetches;
failed, null or empty segments are skipped (`continue`).  The second
component records the segment-fetch attempts as `(node index, segment index)`
pairs. -/
def downloadFileDataFallback (env : ZgEnv) :
    Except JsVal (List Nat) × List (Nat × Nat) :=
  match env.getFileLocations with
  | .error e => (.error e, [])
  | .ok locations =>
    if locations.isEmpty then (.error (.err "File not found on any storage node"), [])
    else
      match findFinalized env.getFileInfo (List.range locations.length) with
      | none => (.error (.err "File not found or not finalized"), [])
      | some fi =>
        match fi.tx with
        | none => (.error (.err "File transaction info not available"), [])
        | some tx =>
          let numSegments := jsOrNat fi.uploadedSegNum (jsOrNat fi.numSegments 1)
          let attempts := (List.range numSegments).map fun i => (0, i)
          let segments := (List.range numSegments).filterMap fun i =>
            let startIndex := i * DEFAULT_SEGMENT_MAX_CHUNKS
            let endIndex := min (startIndex + DEFAULT_SEGMENT_MAX_CHUNKS) (numChunks tx.size)
            match env.downloadSegment 0 startIndex endIndex with
            | .ok (some d) => if d.length > 0 then some d else none
            | _ => none
          (finishSegments segments, attempts)

/-- `downloadFileData`: the rich Downloader path; if its `try` throws, fall
back to `downloadFileDataFallback`. -/
def downloadFileData (env : ZgEnv) : Except JsVal (List Nat) :=
  match downloadFileDataCore env with
  | .ok d => .ok d
  | .error _ => (downloadFileDataFallback env).1

/-- The body of `downloadFile`'s `try` block: SDK init, location lookup,
file-info probing across nodes, then `downloadFileData`. -/
def downloadFileBody (env : ZgEnv) : Except JsVal (List Nat) :=
  match initializeSDK env.sdkLoad with
  | .error e => .error e
  | .ok _ =>
    match env.getFileLocations with
    | .error e => .error e
    | .ok locations =>
      if locations.isEmpty then .error (.err "File not found on any storage node")
      else
        match findFinalized env.getFileInfo (List.range locations.length) with
        | none => .error (.err "File not found or not finalized")
        | some _ => downloadFileData env

/-- `ZgStorageService.downloadFile`: the public API; every thrown failure is
caught and returned as `{success: false, error: message}`. -/
def downloadFile (env : ZgEnv) : DownloadResult :=
  match downloadFileBody env with
  | .ok d => { success := true, data := some d }
  | .error e => { success := false, error := some (jsMessage e) }

/-- Every `Error` this collaborator outcome may carry has a non-empty
message. -/
def MsgOk {α : Type} (o : Except JsVal α) : Prop :=
  ∀ m, o = .error (.err m) → m ≠ ""

/-- The `[result, uploadErr]` pair of `indexer.upload`, restricted to the
fields the caller reads. -/
structure UploadCall where
  rootHash : Option String := none
  txHash : Option String := none
  err : Option String := none
deriving DecidableEq, Repr

/-- Environment of outcomes for one `uploadFile` call. -/
structure UploadEnv where
  signerPresent : Bool
  sdkLoad : Except JsVal Unit
  getAddress : Except JsVal Unit
  merkle : Except JsVal (Option String × Option String)
  getNetwork : Except JsVal Nat
  networkValidation : Except JsVal Unit
  upload : Except JsVal UploadCall

/-- The body of `uploadFile`'s outer `try`: signer check, SDK init, Merkle
tree, network checks, then `indexer.upload`. `merkle` carries
`(tree?.rootHash(), treeErr)`; `getNetwork` carries the chain id. -/
def uploadFileBody (env : UploadEnv) : Except JsVal UploadResult :=
  if env.signerPresent = false then .error (.err "Wallet not connected")
  else
    match initializeSDK env.sdkLoad with
    | .error e => .error e
    | .ok _ =>
      match env.getAddress with
      | .error e => .error e
      | .ok _ =>
        match env.merkle with
        | .error e => .error e
        | .ok (treeRoot, treeErr) =>
          match treeErr with
          | some m => .error (.err ("Error generating Merkle tree: " ++ m))
          | none =>
            match env.getNetwork with
            | .error e => .error e
            | .ok chainId =>
              if chainId ≠ 16602 then
                .error (.err ("Wrong network! Expected chainId 16602, got "
                  ++ toString chainId))
              else
                match env.networkValidation with
                | .error e =>
                  .error (.err ("Network validation failed: " ++ jsMessage e))
                | .ok _ =>
                  match env.upload with
                  | .error e => .error e
                  | .ok call =>
                    match call.err with
                    | some m => .error (.err ("Upload error: " ++ m))
                    | none =>
                      .ok { success := true
                            rootHash := jsOr call.rootHash (jsOr treeRoot "")
                            txHash := jsOr call.txHash "" }

/-- `ZgStorageService.uploadFile`: the public API; every thrown failure is
caught and returned as `{success: false, rootHash: '', txHash: '', error}`. -/
def uploadFile (env : UploadEnv) : UploadResult :=
  match uploadFileBody env with
  | .ok r => r
  | .error e =>
    { success := false, rootHash := "", txHash := "", error := some (jsMessage e) }

/-- The upload collaborators whose thrown errors reach the caller verbatim
(every other failure message is built by `uploadFile` itself with a fixed
non-empty head). -/
def UploadEnvMsgOk (env : UploadEnv) : Prop :=
  MsgOk env.getAddress ∧ MsgOk env.merkle ∧ MsgOk env.getNetwork ∧ MsgOk env.upload

/-! ## Download and preview hooks (`src/hooks/useFileDownload.ts`,
`src/hooks/useFilePreview.ts`) -/

/-- Externally observable pipeline events of one download-hook run.
`verifyDigest` is in the vocabulary so that digest verification of the
reassembled stream can be stated; it is emitted wherever the code performs
such a check. -/
inductive Event where
  | fetchData
  | verifyDigest
  | decryptData
deriving DecidableEq, Repr

/-- The `DownloadInfo` record the hook publishes via `setDownloadInfo` (and
the fields `useFilePreview` derives); built from the resolved mapping. -/
structure DownloadInfo where
  fileName : String
  fileSize : Nat
  mimeType : String
  isEncrypted : Bool
  encryptionKey : Option String
  iv : Option String
  uploader : String
  uploadTime : Nat
deriving DecidableEq, Repr

/-- The `fileMetadata` object built from the resolved mapping: defaults are
applied with JavaScript `||`, and `isEncrypted: !!shareIv` (truthiness of the
mapping's `iv`).  `encryptionKey` is the caller-supplied key (the mapping
record has none). -/
def buildDownloadInfo (now : Nat) (mapping : MappingRecord)
    (encryptionKey : Option String) : DownloadInfo :=
  { fileName := jsOr mapping.fileName "unknown"
    fileSize := jsOrNat mapping.fileSize 0
    mimeType := jsOr mapping.mimeType "application/octet-stream"
    isEncrypted := jsTruthy mapping.iv
    encryptionKey := encryptionKey
    iv := mapping.iv
    uploader := jsOr mapping.uploader "unknown"
    uploadTime := jsOrNat mapping.uploadTime now }

/-- Environment for one run of the download hook's `mutationFn`. -/
structure HookEnv where
  cache : String → Option MappingRecord
  now : Nat
  zgAvailable : Bool
  isConnected : Bool
  zgError : Option String
  dl : ZgEnv
  decrypt : Except JsVal (List Nat)

/-- Result of one hook run: the promise outcome (final bytes or the thrown
error), the published download info, and the emitted pipeline events. -/
structure HookOutcome where
  result : Except JsVal (List Nat)
  info : Option DownloadInfo
  trace : List Event
deriving DecidableEq, Repr

/-- The part of `useFileDownload`'s `mutationFn` after the mapping has been
resolved: publish the metadata, demand a key for encrypted files, check 0G
availability, download via `zgStorage.downloadFile`, then decrypt if needed.
No digest of the reassembled stream is computed anywhere in this pipeline. -/
def hookAfterResolve (env : HookEnv) (md : DownloadInfo)
    (encryptionKey : Option String) : HookOutcome :=
      if md.isEncrypted && !(jsTruthy encryptionKey) then
        ⟨.error (.err "This file is encrypted. Please provide the decryption key."),
          some md, []⟩
      else if env.zgAvailable = false then
        ⟨.error (.err "0G Storage not available. Please check your connection and try again."),
          some md, []⟩
      else if env.isConnected = false then
        ⟨.error (.err ("0G Storage connection failed: " ++ jsOr env.zgError "Unknown error")),
          some md, []⟩
      else
        if (downloadFile env.dl).success = false then
          ⟨.error (.err ("Download failed: "
              ++ jsOr (downloadFile env.dl).error "Unknown error")),
            some md, [.fetchData]⟩
        else
          match (downloadFile env.dl).data with
          | none => ⟨.error (.err "No data received from 0G Storage"), some md, [.fetchData]⟩
          | some data =>
            if md.isEncrypted && jsTruthy encryptionKey then
              if jsTruthy (if jsTruthy encryptionKey then encryptionKey
                  else md.encryptionKey) = false then
                ⟨.error (.err "Decryption failed: No decryption key available"),
                  some md, [.fetchData]⟩
              else if jsTruthy md.iv = false then
                ⟨.error (.err "Decryption failed: No IV available for decryption"),
                  some md, [.fetchData]⟩
              else
                match env.decrypt with
                | .error e =>
                  ⟨.error (.err ("Decryption failed: " ++ jsMessage e)),
                    some md, [.fetchData, .decryptData]⟩
                | .ok plain => ⟨.ok plain, some md, [.fetchData, .decryptData]⟩
            else ⟨.ok data, some md, [.fetchData]⟩

/-- The body of `useFileDownload`'s `mutationFn`: validate the code, resolve
the mapping via `getMappingFrom0G`, build the `fileMetadata` object, then
continue with `hookAfterResolve`. -/
def useFileDownloadRun (env : HookEnv) (shareCode : String)
    (encryptionKey : Option String) : HookOutcome :=
  if validateShareCode shareCode = false then
    ⟨.error (.err "Invalid share code format"), none, []⟩
  else
    match (getMappingFrom0G env.cache shareCode).1 with
    | .error e => ⟨.error e, none, []⟩
    | .ok mapping =>
      hookAfterResolve env (buildDownloadInfo env.now mapping encryptionKey)
        encryptionKey

/-- The body of `useFilePreview`'s `mutationFn`: validate, resolve via
`getMappingFrom0G`, and build the metadata (with `isEncrypted: !!mapping.iv`
and no encryption key). -/
def useFilePreviewRun (cache : String → Option MappingRecord) (now : Nat)
    (shareCode : String) : Except JsVal DownloadInfo :=
  if validateShareCode shareCode = false then
    .error (.err "Invalid share code format")
  else
    match (getMappingFrom0G cache shareCode).1 with
    | .error e => .error e
    | .ok mapping => .ok (buildDownloadInfo now mapping none)

/-! ## Concrete environments used to settle the claims on explicit inputs -/

/-- A transaction of 262145 bytes starting at entry 0: its plan has two
segment tasks (`numChunks = 1025` spans two segments). -/
def twoTaskTx : TxInfo := { seq := 0, size := 262145, startEntryIndex := 0 }

/-- Finalized file info for `twoTaskTx`. -/
def twoTaskFi : FileInfo := { finalized := true, tx := some twoTaskTx }

/-- One node; the primary path's first task yields bytes, the second fails. -/
def partialEnv : ZgEnv :=
  { sdkLoad := .ok ()
    getFileLocations := .ok ["http://node0"]
    getFileInfo := fun _ => .ok (some twoTaskFi)
    queryFile := .ok (some twoTaskFi, none)
    getShardConfig := fun _ => .ok ()
    downloadTask := fun i => if i = 0 then .ok (some [1, 2]) else .error (.err "boom")
    downloadSegment := fun _ _ _ => .error (.err "boom") }

/-- A one-segment transaction of 256 bytes at entry 0. -/
def oneSegTx : TxInfo := { seq := 0, size := 256, startEntryIndex := 0 }

/-- Finalized info for `oneSegTx`, reporting one uploaded segment. -/
def oneSegFi : FileInfo :=
  { finalized := true, tx := some oneSegTx, uploadedSegNum := some 1 }

/-- Two ranked nodes; the primary path is unavailable, node 0's segment fetch
times out while node 1's would succeed. -/
def failoverEnv : ZgEnv :=
  { sdkLoad := .ok ()
    getFileLocations := .ok ["http://node0", "http://node1"]
    getFileInfo := fun _ => .ok (some oneSegFi)
    queryFile := .error (.err "downloader unavailable")
    getShardConfig := fun _ => .error (.err "no shard config")
    downloadTask := fun _ => .error (.err "downloader unavailable")
    downloadSegment := fun n _ _ =>
      if n = 0 then .error (.err "timeout") else .ok (some [7]) }

/-- A single-byte file whose whole download pipeline succeeds. -/
def tinyTx : TxInfo := { seq := 0, size := 1, startEntryIndex := 0 }

/-- Finalized info for `tinyTx`. -/
def tinyFi : FileInfo := { finalized := true, tx := some tinyTx }

/-- A fully successful single-node, single-task download environment. -/
def okZgEnv : ZgEnv :=
  { sdkLoad := .ok ()
    getFileLocations := .ok ["http://node0"]
    getFileInfo := fun _ => .ok (some tinyFi)
    queryFile := .ok (some tinyFi, none)
    getShardConfig := fun _ => .ok ()
    downloadTask := fun _ => .ok (some [5])
    downloadSegment := fun _ _ _ => .ok (some [5]) }

/-- A location lookup that throws an `Error` whose message is empty. -/
def emptyMsgEnv : ZgEnv :=
  { sdkLoad := .ok ()
    getFileLocations := .error (.err "")
    getFileInfo := fun _ => .ok none
    queryFile := .ok (none, none)
    getShardConfig := fun _ => .error (.err "x")
    downloadTask := fun _ => .ok none
    downloadSegment := fun _ _ _ => .ok none }

/-- An encrypted pointer record (non-empty `iv`). -/
def encRec : MappingRecord := { rootHash := "0xabc", iv := some "aabb" }

/-- A pointer record whose `iv` field is present but empty. -/
def emptyIvRec : MappingRecord := { rootHash := "0xabc", iv := some "" }

/-- A hook environment resolving every code to `encRec`, with a working
storage backend and cipher. -/
def encHookEnv : HookEnv :=
  { cache := fun _ => some encRec
    now := 0
    zgAvailable := true
    isConnected := true
    zgError := none
    dl := okZgEnv
    decrypt := .ok [9] }

/-- A hook environment resolving every code to `emptyIvRec`. -/
def emptyIvHookEnv : HookEnv :=
  { cache := fun _ => some emptyIvRec
    now := 0
    zgAvailable := true
    isConnected := true
    zgError := none
    dl := okZgEnv
    decrypt := .ok [9] }

theorem stripHead_eq_some (ps : List Char) :
    ∀ cs r, stripHead ps cs = some r ↔ cs = ps ++ r := by
  induction ps with
  | nil => intro cs r; simp [stripHead]
  | cons p ps ih =>
    intro cs r
    cases cs with
    | nil => simp [stripHead]
    | cons c cs =>
      by_cases h : c = p
      · subst h; simp [stripHead, ih]
      · simp [stripHead, h, Ne.symm h]

theorem group4_eq_true (g : List Char) : group4 g = true ↔ GoodGroup g := by
  constructor
  · intro h
    rcases g with _ | ⟨a, g⟩; · simp [group4] at h
    rcases g with _ | ⟨b, g⟩; · simp [group4] at h
    rcases g with _ | ⟨c, g⟩; · simp [group4] at h
    rcases g with _ | ⟨d, g⟩; · simp [group4] at h
    rcases g with _ | ⟨e, g⟩
    · simp only [group4, Bool.and_eq_true] at h
      obtain ⟨⟨⟨ha, hb⟩, hc⟩, hd⟩ := h
      refine ⟨rfl, ?_⟩
      intro x hx
      simp only [List.mem_cons, List.not_mem_nil, or_false] at hx
      rcases hx with rfl | rfl | rfl | rfl <;> assumption
    · simp [group4] at h
  · rintro ⟨hlen, halnum⟩
    rcases g with _ | ⟨a, g⟩; · simp at hlen
    rcases g with _ | ⟨b, g⟩; · simp at hlen
    rcases g with _ | ⟨c, g⟩; · simp at hlen
    rcases g with _ | ⟨d, g⟩; · simp at hlen
    rcases g with _ | ⟨e, g⟩
    · simp only [group4, Bool.and_eq_true]
      exact ⟨⟨⟨halnum a (by simp), halnum b (by simp)⟩, halnum c (by simp)⟩,
        halnum d (by simp)⟩
    · simp at hlen

theorem groupsThen_succ (n : Nat) (cs : List Char) :
    groupsThen (n + 1) cs = true ↔
      ∃ g rest, GoodGroup g ∧ groupsThen n rest = true ∧ cs = g ++ '-' :: rest := by
  constructor
  · intro h
    rcases cs with _ | ⟨a, cs⟩; · simp [groupsThen] at h
    rcases cs with _ | ⟨b, cs⟩; · simp [groupsThen] at h
    rcases cs with _ | ⟨c, cs⟩; · simp [groupsThen] at h
    rcases cs with _ | ⟨d, cs⟩; · simp [groupsThen] at h
    rcases cs with _ | ⟨e, t⟩; · simp [groupsThen] at h
    simp only [groupsThen, Bool.and_eq_true, beq_iff_eq] at h
    obtain ⟨⟨⟨⟨⟨ha, hb⟩, hc⟩, hd⟩, he⟩, ht⟩ := h
    subst he
    refine ⟨[a, b, c, d], t, ⟨rfl, ?_⟩, ht, rfl⟩
    intro x hx
    simp only [List.mem_cons, List.not_mem_nil, or_false] at hx
    rcases hx with rfl | rfl | rfl | rfl <;> assumption
  · rintro ⟨g, rest, ⟨hlen, halnum⟩, hrest, rfl⟩
    rcases g with _ | ⟨a, g⟩; · simp at hlen
    rcases g with _ | ⟨b, g⟩; · simp at hlen
    rcases g with _ | ⟨c, g⟩; · simp at hlen
    rcases g with _ | ⟨d, g⟩; · simp at hlen
    rcases g with _ | ⟨e, g⟩
    · show groupsThen (n + 1) (a :: b :: c :: d :: '-' :: rest) = true
      simp only [groupsThen, Bool.and_eq_true, beq_iff_eq]
      exact ⟨⟨⟨⟨⟨halnum a (by simp), halnum b (by simp)⟩, halnum c (by simp)⟩,
        halnum d (by simp)⟩, trivial⟩, hrest⟩
    · simp at hlen


/-- Characterisation of `validateShareCode`: it accepts exactly the strings of
the grammar `prefix + 4 dash-joined groups of 4 lowercase alphanumerics`. -/
theorem validateShareCode_iff (s : String) :
    validateShareCode s = true ↔ GoodShareCode s := by
  unfold validateShareCode
  constructor
  · intro h
    rcases hd : s.data with _ | ⟨c, cs⟩
    · simp [hd] at h
    · rw [hd] at h
      simp only [List.isEmpty_cons, if_false, Bool.false_eq_true] at h
      rcases hstrip : stripHead shareCodeHead (c :: cs) with _ | rest
      · rw [hstrip] at h; simp at h
      · rw [hstrip] at h
        rw [stripHead_eq_some] at hstrip
        rw [groupsThen_succ] at h
        obtain ⟨g₁, r₁, hg₁, h, hr₁⟩ := h
        rw [groupsThen_succ] at h
        obtain ⟨g₂, r₂, hg₂, h, hr₂⟩ := h
        rw [groupsThen_succ] at h
        obtain ⟨g₃, r₃, hg₃, h, hr₃⟩ := h
        have hg₄ : GoodGroup r₃ := (group4_eq_true r₃).mp h
        exact ⟨g₁, g₂, g₃, r₃, hg₁, hg₂, hg₃, hg₄, by
          rw [hd, hstrip, hr₁, hr₂, hr₃]⟩
  · rintro ⟨g₁, g₂, g₃, g₄, hg₁, hg₂, hg₃, hg₄, hdata⟩
    have hne : (shareCodeHead ++ (g₁ ++ '-' :: (g₂ ++ '-' :: (g₃ ++ '-' :: g₄)))).isEmpty
        = false := rfl
    rw [hdata]
    simp only [hne, Bool.false_eq_true, if_false]
    have hstrip : stripHead shareCodeHead
        (shareCodeHead ++ (g₁ ++ '-' :: (g₂ ++ '-' :: (g₃ ++ '-' :: g₄)))) =
        some (g₁ ++ '-' :: (g₂ ++ '-' :: (g₃ ++ '-' :: g₄))) := by
      rw [stripHead_eq_some]
    rw [hstrip]
    rw [groupsThen_succ]
    refine ⟨g₁, _, hg₁, ?_, rfl⟩
    rw [groupsThen_succ]
    refine ⟨g₂, _, hg₂, ?_, rfl⟩
    rw [groupsThen_succ]
    refine ⟨g₃, _, hg₃, ?_, rfl⟩
    show group4 g₄ = true
    rw [group4_eq_true]
    exact hg₄

theorem drawChar_alnum (i : Fin 36) : lowerAlnum (drawChar i) = true := by
  revert i; decide

theorem goodGroup_draws (a b c d : Fin 36) :
    GoodGroup [drawChar a, drawChar b, drawChar c, drawChar d] := by
  refine ⟨rfl, ?_⟩
  intro x hx
  simp only [List.mem_cons, List.not_mem_nil, or_false] at hx
  rcases hx with rfl | rfl | rfl | rfl <;> exact drawChar_alnum _

/-- C6: `validateShareCode` returns `true` for exactly the strings made of the
fixed `privshare://0g-` head followed by 4 groups of 4 lowercase-alphanumeric
characters joined by `-`; in particular it accepts
`privshare://0g-ab12-cd34-ef56-gh78` and rejects a 3-group code and a code
containing an uppercase letter.  The check is a pure function of the string
(no state enters the definition). -/
theorem validateShareCode_grammar_exact :
    (∀ s : String, validateShareCode s = true ↔ GoodShareCode s) ∧
    validateShareCode "privshare://0g-ab12-cd34-ef56-gh78" = true ∧
    validateShareCode "privshare://0g-ab12-cd34-ef56" = false ∧
    validateShareCode "privshare://0g-AB12-cd34-ef56-gh78" = false :=
  ⟨validateShareCode_iff, by decide, by decide, by decide⟩

/-- C7: for every sequence of random draws from the 36-character
lowercase-alphanumeric alphabet, the codes produced by
`generateRandomShareCode` and `generateShareCode` satisfy
`validateShareCode` (generate-then-validate round trip). -/
theorem generate_then_validate (r : Nat → Fin 36) :
    validateShareCode (generateRandomShareCode r) = true ∧
    validateShareCode (generateShareCode r) = true := by
  constructor
  · rw [validateShareCode_iff]
    exact ⟨[drawChar (r 0), drawChar (r 1), drawChar (r 2), drawChar (r 3)],
      [drawChar (r 4), drawChar (r 5), drawChar (r 6), drawChar (r 7)],
      [drawChar (r 8), drawChar (r 9), drawChar (r 10), drawChar (r 11)],
      [drawChar (r 12), drawChar (r 13), drawChar (r 14), drawChar (r 15)],
      goodGroup_draws _ _ _ _, goodGroup_draws _ _ _ _,
      goodGroup_draws _ _ _ _, goodGroup_draws _ _ _ _, rfl⟩
  · rw [validateShareCode_iff]
    exact ⟨randomGroup r 0, randomGroup r 4, randomGroup r 8, randomGroup r 12,
      goodGroup_draws _ _ _ _, goodGroup_draws _ _ _ _,
      goodGroup_draws _ _ _ _, goodGroup_draws _ _ _ _, rfl⟩

/-- Concrete instantiation of the round trip at the all-zero draw stream. -/
theorem generate_then_validate_sample :
    validateShareCode (generateRandomShareCode fun _ => (0 : Fin 36)) = true ∧
    validateShareCode (generateShareCode fun _ => (0 : Fin 36)) = true :=
  generate_then_validate fun _ => (0 : Fin 36)

theorem append_ne_empty (a b : String) (ha : a.data ≠ []) : a ++ b ≠ "" := by
  intro h
  apply ha
  have hd := congrArg String.data h
  rw [String.data_append] at hd
  exact (List.append_eq_nil.mp hd).1

theorem jsMessage_ne_empty (e : JsVal) (h : ∀ m, e = .err m → m ≠ "") :
    jsMessage e ≠ "" := by
  rcases e with m | _
  · exact h m rfl
  · decide

theorem append_ne_of_head_ne (a b t : String) (ca ct : Char)
    (ha : a.data.head? = some ca) (ht : t.data.head? = some ct) (hne : ca ≠ ct) :
    a ++ b ≠ t := by
  intro he
  have hd := congrArg String.data he
  rw [String.data_append] at hd
  rcases hda : a.data with _ | ⟨c, cs⟩
  · rw [hda] at ha; exact Option.noConfusion ha
  · rw [hda] at ha hd
    rw [List.head?_cons] at ha
    have hc : c = ca := Option.some.inj ha
    rw [List.cons_append] at hd
    have hh := congrArg List.head? hd
    rw [List.head?_cons, ht] at hh
    exact hne (hc ▸ Option.some.inj hh)

/-- C4: for a grammatically valid share code with no local cache entry and no
reachable index collaborator, resolution fails with its unresolved signal —
`getMappingFrom0G` throws `Mapping record not found.` and `getMappingFromIPFS`
returns `null` — and neither ever fabricates a successful record that did not
come from the cache or the gateway; when a cache entry exists,
`getMappingFrom0G` returns it while issuing no network request (the cache is
attempted first). -/
theorem resolve_unresolved_or_cached (cache : String → Option MappingRecord)
    (env : PinataEnv) (code : String) (hvalid : validateShareCode code = true) :
    (cache code = none →
      getMappingFrom0G cache code = (.error (.err "Mapping record not found."), [])) ∧
    (NoIndex env → (getMappingFromIPFS env code).1 = none) ∧
    (∀ r, cache code = some r → getMappingFrom0G cache code = (.ok r, [])) ∧
    (∀ r ops, getMappingFrom0G cache code = (.ok r, ops) →
      cache code = some r ∧ ops = []) ∧
    (∀ r, (getMappingFromIPFS env code).1 = some r →
      ∃ h m, env.gateway h = .ok m ∧ r = toResolved m) := by
  refine ⟨?_, ?_, ?_, ?_, ?_⟩
  · intro hc; simp [getMappingFrom0G, hvalid, hc]
  · intro hni
    unfold getMappingFromIPFS
    by_cases hcfg : env.configPresent = false
    · simp [hcfg]
    · rw [if_neg hcfg]
      rcases hni with h | ⟨e, hs⟩ | ⟨s, hs⟩
      · exact absurd h hcfg
      · rw [hs]
      · rw [hs]
  · intro r hr; simp [getMappingFrom0G, hvalid, hr]
  · intro r ops h
    rcases hc : cache code with _ | r'
    · simp [getMappingFrom0G, hvalid, hc] at h
    · simp [getMappingFrom0G, hvalid, hc] at h
      exact ⟨congrArg some h.1, h.2⟩
  · intro r h
    unfold getMappingFromIPFS at h
    split at h
    · exact Option.noConfusion h
    · split at h
      · exact Option.noConfusion h
      · exact Option.noConfusion h
      · exact Option.noConfusion h
      · split at h
        · exact Option.noConfusion h
        · exact Option.noConfusion h
        · rename_i m hg
          exact ⟨_, m, hg, (Option.some.inj h).symm⟩

/-- C4 witness: the unresolved and the cache-first cases at a concrete valid
code, an empty (resp. populated) cache, and an unreachable index. -/
theorem resolve_unresolved_or_cached_witness :
    getMappingFrom0G (fun _ => none) "privshare://0g-aaaa-bbbb-cccc-dddd"
        = (.error (.err "Mapping record not found."), []) ∧
    (getMappingFromIPFS ⟨false, .notOk "500", .notOk "500", fun _ => .notOk "500"⟩
        "privshare://0g-aaaa-bbbb-cccc-dddd").1 = none ∧
    getMappingFrom0G (fun _ => some encRec) "privshare://0g-aaaa-bbbb-cccc-dddd"
        = (.ok encRec, []) := by
  have h1 := resolve_unresolved_or_cached (fun _ => none)
    ⟨false, .notOk "500", .notOk "500", fun _ => .notOk "500"⟩
    "privshare://0g-aaaa-bbbb-cccc-dddd" (by decide)
  have h2 := resolve_unresolved_or_cached (fun _ => some encRec)
    ⟨false, .notOk "500", .notOk "500", fun _ => .notOk "500"⟩
    "privshare://0g-aaaa-bbbb-cccc-dddd" (by decide)
  exact ⟨h1.1 rfl, h1.2.1 (Or.inl rfl), h2.2.2.1 encRec rfl⟩

/-- C5 counterexample: `storeMappingToIPFS` issues its Pinata network request
and succeeds on a malformed share code instead of failing fast with a format
error before any network operation. -/
theorem storeMappingToIPFS_skips_validation :
    validateShareCode "bad-code" = false ∧
    storeMappingToIPFS ⟨true, .ok "QmHash", .ok [], fun _ => .notOk "500"⟩
        "bad-code" "0xroot"
      = (.ok ("QmHash", "bad-code", "0xroot"), [.pinataPin]) :=
  ⟨by decide, rfl⟩

/-- C5 amended: `storeMappingTo0G`, `getMappingFrom0G`, and the download and
preview hooks validate the share-code grammar first and fail fast with
`Invalid share code format`, performing no network operation on a malformed
code; `storeMappingToIPFS` alone performs no validation and issues its Pinata
request (whenever credentials are configured) even for a malformed code. -/
theorem validate_first_except_storeToIPFS (code : String)
    (h : validateShareCode code = false) :
    (∀ up record, storeMappingTo0G up code record
        = (.error (.err "Invalid share code format"), [], none)) ∧
    (∀ cache, getMappingFrom0G cache code
        = (.error (.err "Invalid share code format"), [])) ∧
    (∀ env key, useFileDownloadRun env code key
        = ⟨.error (.err "Invalid share code format"), none, []⟩) ∧
    (∀ cache now, useFilePreviewRun cache now code
        = .error (.err "Invalid share code format")) ∧
    (∀ env root, env.configPresent = true →
      (storeMappingToIPFS env code root).2 = [NetOp.pinataPin]) := by
  refine ⟨?_, ?_, ?_, ?_, ?_⟩
  · intro up record; simp [storeMappingTo0G, h]
  · intro cache; simp [getMappingFrom0G, h]
  · intro env key; simp [useFileDownloadRun, h]
  · intro cache now; simp [useFilePreviewRun, h]
  · intro env root hc
    unfold storeMappingToIPFS
    rw [hc]
    rcases env.pin with e | s | hsh <;> simp

/-- C5 witness: the fail-fast paths at a concrete malformed code. -/
theorem validate_first_witness :
    getMappingFrom0G (fun _ => none) "nope"
        = (.error (.err "Invalid share code format"), []) ∧
    storeMappingTo0G { success := false, txHash := "", rootHash := "" } "nope" encRec
        = (.error (.err "Invalid share code format"), [], none) := by
  have h := validate_first_except_storeToIPFS "nope" (by decide)
  exact ⟨h.2.1 (fun _ => none), h.1 _ encRec⟩

/-- C8: for every `startEntryIndex ≥ 0` (inherent in `Nat`) and `size ≥ 1`,
the plan is exactly one task per segment index in
`[startSegmentIndex, endSegmentIndex]`: `numChunks` is the exact ceiling of
`size / chunkSize`, the two bounds are the exact floors of
`startEntryIndex / maxChunksPerSegment` and
`(startEntryIndex + numChunks - 1) / maxChunksPerSegment`, and the task count
is `endSegmentIndex - startSegmentIndex + 1` — all in exact integer
arithmetic with one ceiling and one floor per boundary. -/
theorem downloadPlan_exact (startEntry size : Nat) (h : 1 ≤ size) :
    (DEFAULT_CHUNK_SIZE * (numChunks size - 1) < size ∧
      size ≤ DEFAULT_CHUNK_SIZE * numChunks size) ∧
    (DEFAULT_SEGMENT_MAX_CHUNKS * startSegmentIndex startEntry ≤ startEntry ∧
      startEntry < DEFAULT_SEGMENT_MAX_CHUNKS * (startSegmentIndex startEntry + 1)) ∧
    (DEFAULT_SEGMENT_MAX_CHUNKS * endSegmentIndex startEntry size
        ≤ startEntry + numChunks size - 1 ∧
      startEntry + numChunks size - 1
        < DEFAULT_SEGMENT_MAX_CHUNKS * (endSegmentIndex startEntry size + 1)) ∧
    numTasks startEntry size
      = endSegmentIndex startEntry size - startSegmentIndex startEntry + 1 ∧
    (planSegmentIndices startEntry size).length = numTasks startEntry size ∧
    (∀ s, s ∈ planSegmentIndices startEntry size ↔
      startSegmentIndex startEntry ≤ s ∧ s ≤ endSegmentIndex startEntry size) ∧
    (planSegmentIndices startEntry size).Nodup := by
  have hse : startSegmentIndex startEntry ≤ endSegmentIndex startEntry size := by
    unfold startSegmentIndex endSegmentIndex numChunks DEFAULT_CHUNK_SIZE
      DEFAULT_SEGMENT_MAX_CHUNKS
    have hle : startEntry ≤ startEntry + (size + 256 - 1) / 256 - 1 := by omega
    exact Nat.div_le_div_right hle
  refine ⟨⟨?_, ?_⟩, ⟨?_, ?_⟩, ⟨?_, ?_⟩, rfl, ?_, ?_, ?_⟩
  · unfold numChunks DEFAULT_CHUNK_SIZE; omega
  · unfold numChunks DEFAULT_CHUNK_SIZE; omega
  · unfold startSegmentIndex DEFAULT_SEGMENT_MAX_CHUNKS; omega
  · unfold startSegmentIndex DEFAULT_SEGMENT_MAX_CHUNKS; omega
  · unfold endSegmentIndex numChunks DEFAULT_CHUNK_SIZE DEFAULT_SEGMENT_MAX_CHUNKS
    omega
  · unfold endSegmentIndex numChunks DEFAULT_CHUNK_SIZE DEFAULT_SEGMENT_MAX_CHUNKS
    omega
  · simp [planSegmentIndices]
  · intro s
    unfold planSegmentIndices numTasks
    simp only [List.mem_map, List.mem_range]
    constructor
    · rintro ⟨t, ht, rfl⟩
      omega
    · rintro ⟨h1, h2⟩
      exact ⟨s - startSegmentIndex startEntry, by omega, by omega⟩
  · unfold planSegmentIndices
    exact (List.nodup_range _).map fun a b hab => by omega

/-- C8 witness: the plan of a 262145-byte file at entry 0 has two tasks. -/
theorem downloadPlan_exact_witness :
    (planSegmentIndices 0 262145).length = numTasks 0 262145 ∧
    numTasks 0 262145 = 2 :=
  ⟨(downloadPlan_exact 0 262145 (by decide)).2.2.2.2.1, by decide⟩

theorem collectTaskSegments_eq_nil
    (outcome : Nat → Except JsVal (Option (List Nat))) (n : Nat) :
    collectTaskSegments outcome n = [] ↔
      ∀ i < n, taskHasData (outcome i) = false := by
  unfold collectTaskSegments
  rw [List.filterMap_eq_nil_iff]
  constructor
  · intro h i hi
    have hn := h i (List.mem_range.mpr hi)
    unfold taskHasData
    rw [hn]; rfl
  · intro h i hi
    have hb := h i (List.mem_range.mp hi)
    unfold taskHasData at hb
    rcases ho : taskSegment (outcome i) with _ | d
    · rfl
    · rw [ho] at hb; exact absurd hb (by simp)

/-- C1 counterexample: with two planned segment tasks of which the first
yields bytes and the second fails, the retrieval executor returns the lone
successful segment as a completed byte stream instead of reporting failure. -/
theorem downloadFileData_partial_cex :
    numTasks twoTaskTx.startEntryIndex twoTaskTx.size = 2 ∧
    taskHasData (partialEnv.downloadTask 1) = false ∧
    partialEnv.downloadTask 1 = .error (.err "boom") ∧
    downloadFileData partialEnv = .ok [1, 2] :=
  ⟨by decide, by decide, by decide, by decide⟩

/-- C1 amended: the retrieval executor reports failure only when EVERY task
failed or produced no data (`No segments were successfully downloaded`);
whenever at least one task yields non-empty data it returns the in-order
concatenation of just the successful segments — even when other tasks of the
plan failed. -/
theorem downloadFileData_partial (env : ZgEnv) (locations : List String)
    (fi : FileInfo) (tx : TxInfo)
    (hsdk : env.sdkLoad = .ok ())
    (hloc : env.getFileLocations = .ok locations) (hne : locations ≠ [])
    (hq : env.queryFile = .ok (some fi, none))
    (hfin : fi.finalized = true) (htx : fi.tx = some tx)
    (hcfg : getShardConfigs env.getShardConfig (List.range locations.length) ≠ none) :
    (downloadFileDataCore env =
      finishSegments (collectTaskSegments env.downloadTask
        (numTasks tx.startEntryIndex tx.size))) ∧
    (collectTaskSegments env.downloadTask (numTasks tx.startEntryIndex tx.size) = [] ↔
      ∀ i < numTasks tx.startEntryIndex tx.size,
        taskHasData (env.downloadTask i) = false) ∧
    (∀ segs,
      collectTaskSegments env.downloadTask (numTasks tx.startEntryIndex tx.size) = segs →
      segs ≠ [] → downloadFileDataCore env = .ok segs.flatten) ∧
    (collectTaskSegments env.downloadTask (numTasks tx.startEntryIndex tx.size) = [] →
      downloadFileDataCore env
        = .error (.err "No segments were successfully downloaded")) := by
  have hemp : locations.isEmpty = false := by
    cases locations with
    | nil => exact absurd rfl hne
    | cons a l => rfl
  have hred : downloadFileDataCore env =
      finishSegments (collectTaskSegments env.downloadTask
        (numTasks tx.startEntryIndex tx.size)) := by
    rcases hsc : getShardConfigs env.getShardConfig (List.range locations.length)
      with _ | cfgs
    · exact absurd hsc hcfg
    unfold downloadFileDataCore
    simp [hsdk, initializeSDK, hloc, hemp, hq, hfin, htx, hsc]
  refine ⟨hred, collectTaskSegments_eq_nil env.downloadTask _, ?_, ?_⟩
  · intro segs hcs hne'
    have hsegs : segs.isEmpty = false := by
      cases segs with
      | nil => exact absurd rfl hne'
      | cons a l => rfl
    rw [hred, hcs]
    simp [finishSegments, hsegs]
  · intro hcs
    rw [hred, hcs]
    rfl

/-- C1 witness: the amended behaviour at the concrete two-task environment. -/
theorem downloadFileData_partial_witness :
    downloadFileDataCore partialEnv = .ok ([[1, 2]] : List (List Nat)).flatten := by
  have h := downloadFileData_partial partialEnv ["http://node0"] twoTaskFi twoTaskTx
    rfl rfl (by simp) rfl rfl rfl (by decide)
  exact h.2.2.1 [[1, 2]] (by decide) (by simp)

theorem findFinalized_cons (info : Nat → Except JsVal (Option FileInfo)) (i : Nat)
    (rest : List Nat) :
    findFinalized info (i :: rest) =
      match finalizedAt (info i) with
      | some fi => some fi
      | none => findFinalized info rest := by
  rcases hi : info i with e | o
  · simp [findFinalized, finalizedAt, hi]
  · rcases o with _ | fi
    · simp [findFinalized, finalizedAt, hi]
    · by_cases hf : fi.finalized = true <;> simp [findFinalized, finalizedAt, hi, hf]

theorem findFinalized_skip (info : Nat → Except JsVal (Option FileInfo))
    (a : List Nat) (j : Nat) (b : List Nat) (fi : FileInfo)
    (ha : ∀ i ∈ a, finalizedAt (info i) = none)
    (hj : finalizedAt (info j) = some fi) :
    findFinalized info (a ++ j :: b) = some fi := by
  induction a with
  | nil =>
    rw [List.nil_append, findFinalized_cons, hj]
  | cons x xs ih =>
    rw [List.cons_append, findFinalized_cons, ha x (List.mem_cons_self x xs)]
    exact ih fun i hi => ha i (List.mem_cons_of_mem x hi)

/-- C3 counterexample: with two ranked candidate nodes where node 0's segment
fetch fails and node 1's would succeed, the executor makes exactly one
attempt — on node 0 — never advances to node 1, and abandons the download
with the all-failed error (1 attempt, not N = 2). -/
theorem fallback_no_node_advance :
    failoverEnv.getFileLocations = .ok ["http://node0", "http://node1"] ∧
    failoverEnv.downloadSegment 1 0 1 = .ok (some [7]) ∧
    downloadFileDataFallback failoverEnv
      = (.error (.err "No segments were successfully downloaded"), [(0, 0)]) ∧
    downloadFileData failoverEnv
      = .error (.err "No segments were successfully downloaded") :=
  ⟨rfl, by decide, by decide, by decide⟩

/-- C3 amended: the repository's own retrieval code performs no per-segment
node fail-over: every segment-fetch attempt of the fallback path targets node
0 (the first ranked node), one attempt per segment in order; node-level
fail-over exists only in the file-info lookup, which skips failing or
non-finalized nodes and settles on the first node reporting finalized info. -/
theorem fallback_first_node_only (env : ZgEnv) :
    ((downloadFileDataFallback env).2 = [] ∨
      ∃ k, (downloadFileDataFallback env).2 = (List.range k).map fun i => (0, i)) ∧
    (∀ p ∈ (downloadFileDataFallback env).2, p.1 = 0) ∧
    (∀ (info : Nat → Except JsVal (Option FileInfo)) (a : List Nat) (j : Nat)
        (b : List Nat) (fi : FileInfo),
      (∀ i ∈ a, finalizedAt (info i) = none) → finalizedAt (info j) = some fi →
      findFinalized info (a ++ j :: b) = some fi) := by
  have htr : (downloadFileDataFallback env).2 = [] ∨
      ∃ k, (downloadFileDataFallback env).2 = (List.range k).map fun i => (0, i) := by
    unfold downloadFileDataFallback
    split
    · exact Or.inl rfl
    · split
      · exact Or.inl rfl
      · split
        · exact Or.inl rfl
        · split
          · exact Or.inl rfl
          · exact Or.inr ⟨_, rfl⟩
  refine ⟨htr, ?_, ?_⟩
  · intro p hp
    rcases htr with hnil | ⟨k, hmap⟩
    · rw [hnil] at hp; exact absurd hp (List.not_mem_nil p)
    · rw [hmap] at hp
      simp only [List.mem_map, List.mem_range] at hp
      obtain ⟨i, _, hi⟩ := hp
      rw [← hi]
  · exact fun info a j b fi ha hj => findFinalized_skip info a j b fi ha hj

/-- C3 witness: the node-0-only attempt trace and the file-info fail-over at
the concrete two-node environment. -/
theorem fallback_first_node_only_witness :
    (∀ p ∈ (downloadFileDataFallback failoverEnv).2, p.1 = 0) ∧
    findFinalized failoverEnv.getFileInfo [0] = some oneSegFi := by
  have h := fallback_first_node_only failoverEnv
  refine ⟨h.2.1, ?_⟩
  have hf := h.2.2 failoverEnv.getFileInfo [] 0 [] oneSegFi
    (by intro i hi; exact absurd hi (List.not_mem_nil i)) (by decide)
  simpa using hf

theorem hookAfterResolve_shape (env : HookEnv) (md : DownloadInfo)
    (key : Option String) :
    (hookAfterResolve env md key).info = some md ∧
    ((hookAfterResolve env md key).trace = [] ∨
      (hookAfterResolve env md key).trace = [.fetchData] ∨
      ((hookAfterResolve env md key).trace = [.fetchData, .decryptData] ∧
        (downloadFile env.dl).success = true ∧ (downloadFile env.dl).data ≠ none)) ∧
    ((md.isEncrypted && !(jsTruthy key)) = true →
      hookAfterResolve env md key =
        ⟨.error (.err "This file is encrypted. Please provide the decryption key."),
          some md, []⟩) ∧
    ((md.isEncrypted && !(jsTruthy key)) = false →
      (hookAfterResolve env md key).result
        ≠ .error (.err "This file is encrypted. Please provide the decryption key.")) := by
  unfold hookAfterResolve
  by_cases h1 : (md.isEncrypted && !(jsTruthy key)) = true
  · rw [if_pos h1]
    exact ⟨rfl, Or.inl rfl, fun _ => rfl, fun hc => absurd h1 (by simp [hc])⟩
  · rw [if_neg h1]
    by_cases h2 : env.zgAvailable = false
    · rw [if_pos h2]
      refine ⟨rfl, Or.inl rfl, fun h => absurd h h1, fun _ hcontra => ?_⟩
      exact absurd (JsVal.err.inj (Except.error.inj hcontra)) (by decide)
    · rw [if_neg h2]
      by_cases h3 : env.isConnected = false
      · rw [if_pos h3]
        refine ⟨rfl, Or.inl rfl, fun h => absurd h h1, fun _ hcontra => ?_⟩
        have hstr := JsVal.err.inj (Except.error.inj hcontra)
        exact append_ne_of_head_ne "0G Storage connection failed: " _
          "This file is encrypted. Please provide the decryption key." '0' 'T'
          rfl rfl (by decide) hstr
      · rw [if_neg h3]
        by_cases h4 : (downloadFile env.dl).success = false
        · rw [if_pos h4]
          refine ⟨rfl, Or.inr (Or.inl rfl), fun h => absurd h h1, fun _ hcontra => ?_⟩
          have hstr := JsVal.err.inj (Except.error.inj hcontra)
          exact append_ne_of_head_ne "Download failed: " _
            "This file is encrypted. Please provide the decryption key." 'D' 'T'
            rfl rfl (by decide) hstr
        · rw [if_neg h4]
          have hsucc : (downloadFile env.dl).success = true := by
            revert h4; cases (downloadFile env.dl).success <;> simp
          split
          · refine ⟨rfl, Or.inr (Or.inl rfl), fun h => absurd h h1, fun _ hcontra => ?_⟩
            exact absurd (JsVal.err.inj (Except.error.inj hcontra)) (by decide)
          · rename_i data hd
            by_cases h6 : (md.isEncrypted && jsTruthy key) = true
            · rw [if_pos h6]
              by_cases h7 : jsTruthy (if jsTruthy key then key
                  else md.encryptionKey) = false
              · rw [if_pos h7]
                refine ⟨rfl, Or.inr (Or.inl rfl), fun h => absurd h h1,
                  fun _ hcontra => ?_⟩
                exact absurd (JsVal.err.inj (Except.error.inj hcontra)) (by decide)
              · rw [if_neg h7]
                by_cases h8 : jsTruthy md.iv = false
                · rw [if_pos h8]
                  refine ⟨rfl, Or.inr (Or.inl rfl), fun h => absurd h h1,
                    fun _ hcontra => ?_⟩
                  exact absurd (JsVal.err.inj (Except.error.inj hcontra)) (by decide)
                · rw [if_neg h8]
                  rcases env.decrypt with e | plain
                  · refine ⟨rfl, Or.inr (Or.inr ⟨rfl, hsucc, by rw [hd]; simp⟩),
                      fun h => absurd h h1, fun _ hcontra => ?_⟩
                    have hstr := JsVal.err.inj (Except.error.inj hcontra)
                    exact append_ne_of_head_ne "Decryption failed: " _
                      "This file is encrypted. Please provide the decryption key." 'D' 'T'
                      rfl rfl (by decide) hstr
                  · exact ⟨rfl, Or.inr (Or.inr ⟨rfl, hsucc, by rw [hd]; simp⟩),
                      fun h => absurd h h1,
                      fun _ hcontra => Except.noConfusion hcontra⟩
            · rw [if_neg h6]
              exact ⟨rfl, Or.inr (Or.inl rfl), fun h => absurd h h1,
                fun _ hcontra => Except.noConfusion hcontra⟩

theorem useFileDownloadRun_shape (env : HookEnv) (code : String)
    (key : Option String) :
    ((useFileDownloadRun env code key).trace = []
        ∧ (useFileDownloadRun env code key).info = none) ∨
      ∃ mapping, (getMappingFrom0G env.cache code).1 = .ok mapping ∧
        useFileDownloadRun env code key
          = hookAfterResolve env (buildDownloadInfo env.now mapping key) key := by
  unfold useFileDownloadRun
  split
  · exact Or.inl ⟨rfl, rfl⟩
  · split
    · exact Or.inl ⟨rfl, rfl⟩
    · rename_i mapping heq
      exact Or.inr ⟨mapping, heq, rfl⟩

/-- C2 counterexample: a complete encrypted-file download decrypts the
reassembled bytes directly after the fetch: the run's trace contains the
decryption event and no digest-verification event — the digest of the
reassembled stream is never checked against the addressing root hash before
(or after) decryption. -/
theorem decrypt_without_verify_cex :
    (useFileDownloadRun encHookEnv "privshare://0g-aaaa-aaaa-aaaa-aaaa"
        (some "k")).trace = [.fetchData, .decryptData] ∧
    Event.verifyDigest ∉
      (useFileDownloadRun encHookEnv "privshare://0g-aaaa-aaaa-aaaa-aaaa"
        (some "k")).trace ∧
    (useFileDownloadRun encHookEnv "privshare://0g-aaaa-aaaa-aaaa-aaaa"
        (some "k")).result = .ok [9] :=
  ⟨by decide, by decide, by decide⟩

/-- C2 amended: the download pipeline performs NO digest verification of the
reassembled byte stream: no run ever emits `verifyDigest`; whenever decryption
is attempted it immediately follows a successful full reassembly
(`trace = [fetchData, decryptData]` with `downloadFile` having returned
success and data) — decrypt-after-download, with no integrity check in
between. -/
theorem no_digest_verification (env : HookEnv) (code : String) (key : Option String) :
    Event.verifyDigest ∉ (useFileDownloadRun env code key).trace ∧
    (Event.decryptData ∈ (useFileDownloadRun env code key).trace →
      (useFileDownloadRun env code key).trace = [.fetchData, .decryptData] ∧
      (downloadFile env.dl).success = true ∧ (downloadFile env.dl).data ≠ none) := by
  rcases useFileDownloadRun_shape env code key with ⟨ht, _⟩ | ⟨mapping, _, hrun⟩
  · rw [ht]
    exact ⟨by simp, fun hmem => absurd hmem (by simp)⟩
  · rw [hrun]
    rcases (hookAfterResolve_shape env (buildDownloadInfo env.now mapping key) key).2.1
      with ht | ht | ⟨ht, hs, hdne⟩
    · rw [ht]; exact ⟨by simp, fun hmem => absurd hmem (by simp)⟩
    · rw [ht]; exact ⟨by simp, fun hmem => absurd hmem (by simp)⟩
    · rw [ht]; exact ⟨by simp, fun _ => ⟨rfl, hs, hdne⟩⟩

/-- C2 witness: decrypt-after-download at the concrete successful encrypted
run. -/
theorem no_digest_verification_witness :
    (useFileDownloadRun encHookEnv "privshare://0g-aaaa-aaaa-aaaa-aaaa"
        (some "k")).trace = [Event.fetchData, Event.decryptData] ∧
    (downloadFile encHookEnv.dl).success = true ∧
    (downloadFile encHookEnv.dl).data ≠ none :=
  (no_digest_verification encHookEnv "privshare://0g-aaaa-aaaa-aaaa-aaaa"
    (some "k")).2 (by decide)

theorem msgOk_elim {α : Type} (o : Except JsVal α) (e : JsVal) (ho : MsgOk o)
    (he : o = .error e) : jsMessage e ≠ "" :=
  jsMessage_ne_empty e fun m hm => ho m (by rw [he, hm])

theorem initializeSDK_error (load : Except JsVal Unit) (e : JsVal)
    (h : initializeSDK load = .error e) :
    ∃ e₀, load = .error e₀ ∧
      e = .err ("Failed to initialize 0G Storage SDK: " ++ jsMessage e₀) := by
  rcases load with e₀ | u
  · exact ⟨e₀, rfl, (Except.error.inj h).symm⟩
  · exact absurd h (by simp [initializeSDK])

theorem uploadFileBody_ok (env : UploadEnv) (r : UploadResult)
    (h : uploadFileBody env = .ok r) : r.success = true := by
  unfold uploadFileBody at h
  repeat' split at h
  all_goals first
    | (rw [← Except.ok.inj h]; try rfl)
    | exact absurd h (by simp)

theorem uploadFileBody_err (env : UploadEnv) (hok : UploadEnvMsgOk env) (e : JsVal)
    (h : uploadFileBody env = .error e) : jsMessage e ≠ "" := by
  obtain ⟨ha, hm, hn, hup⟩ := hok
  unfold uploadFileBody at h
  split at h
  · cases Except.error.inj h; decide
  · split at h
    · rename_i e₁ heq
      rw [← Except.error.inj h]
      obtain ⟨e₀, _, he⟩ := initializeSDK_error env.sdkLoad e₁ heq
      rw [he]
      exact append_ne_empty _ _ (by decide)
    · split at h
      · rename_i e₁ heq
        rw [← Except.error.inj h]
        exact msgOk_elim env.getAddress e₁ ha heq
      · split at h
        · rename_i e₁ heq
          rw [← Except.error.inj h]
          exact msgOk_elim env.merkle e₁ hm heq
        · split at h
          · cases Except.error.inj h
            exact append_ne_empty _ _ (by decide)
          · split at h
            · rename_i e₁ heq
              rw [← Except.error.inj h]
              exact msgOk_elim env.getNetwork e₁ hn heq
            · split at h
              · cases Except.error.inj h
                exact append_ne_empty _ _ (by decide)
              · split at h
                · cases Except.error.inj h
                  exact append_ne_empty _ _ (by decide)
                · split at h
                  · rename_i e₁ heq
                    rw [← Except.error.inj h]
                    exact msgOk_elim env.upload e₁ hup heq
                  · split at h
                    · cases Except.error.inj h
                      exact append_ne_empty _ _ (by decide)
                    · exact absurd h (by simp)

theorem fallback_err_literal (env : ZgEnv) (locations : List String)
    (hloc : env.getFileLocations = .ok locations) (hemp : locations.isEmpty = false)
    (fi : FileInfo)
    (hff : findFinalized env.getFileInfo (List.range locations.length) = some fi)
    (e : JsVal) (h : (downloadFileDataFallback env).1 = .error e) :
    e = .err "File transaction info not available" ∨
      e = .err "No segments were successfully downloaded" := by
  unfold downloadFileDataFallback at h
  simp only [hloc, hemp, hff, Bool.false_eq_true, if_false] at h
  rcases htx : fi.tx with _ | tx
  · rw [htx] at h
    exact Or.inl (Except.error.inj h).symm
  · rw [htx] at h
    simp only [finishSegments] at h
    split at h
    · exact Or.inr (Except.error.inj h).symm
    · exact absurd h (by simp)

theorem downloadFileBody_err (env : ZgEnv) (hl : MsgOk env.getFileLocations)
    (e : JsVal) (h : downloadFileBody env = .error e) : jsMessage e ≠ "" := by
  unfold downloadFileBody at h
  split at h
  · rename_i e₁ heq
    rw [← Except.error.inj h]
    obtain ⟨e₀, _, he⟩ := initializeSDK_error env.sdkLoad e₁ heq
    rw [he]
    exact append_ne_empty _ _ (by decide)
  · split at h
    · rename_i e₁ heq
      rw [← Except.error.inj h]
      exact msgOk_elim env.getFileLocations e₁ hl heq
    · rename_i locations heqloc
      split at h
      · cases Except.error.inj h; decide
      · rename_i hemp
        split at h
        · cases Except.error.inj h; decide
        · rename_i fi hff
          unfold downloadFileData at h
          split at h
          · exact absurd h (by simp)
          · have hemp' : locations.isEmpty = false := by
              revert hemp; cases locations.isEmpty <;> simp
            rcases fallback_err_literal env locations heqloc hemp' fi hff e h with
              he | he <;> rw [he] <;> decide

/-- C9 counterexample: a location-lookup failure whose `Error` carries an
empty message makes `downloadFile` resolve (not reject) with
`success = false` but an EMPTY error string — the raw message is passed
through — refuting the non-empty-error-string claim. -/
theorem download_empty_error_cex :
    downloadFile emptyMsgEnv
      = { success := false, data := none, error := some "" } := by
  decide

/-- C9 amended: `uploadFile` and `downloadFile` never reject — every failure
is caught and returned as a result object with `success = false` and an error
string present; that string is non-empty whenever the external collaborators'
own thrown `Error`s carry non-empty messages (internally-built messages have
fixed non-empty heads, non-`Error` throws map to `Unknown error`, but a
collaborator `Error` message is passed through verbatim, empty or not). -/
theorem results_never_reject (uenv : UploadEnv) (denv : ZgEnv)
    (hu : UploadEnvMsgOk uenv) (hdl : MsgOk denv.getFileLocations) :
    ((uploadFile uenv).success = true ∨
      ((uploadFile uenv).success = false ∧
        ∃ m, (uploadFile uenv).error = some m ∧ m ≠ "")) ∧
    ((downloadFile denv).success = true ∨
      ((downloadFile denv).success = false ∧
        ∃ m, (downloadFile denv).error = some m ∧ m ≠ "")) := by
  constructor
  · unfold uploadFile
    rcases hb : uploadFileBody uenv with e | r
    · exact Or.inr ⟨rfl, jsMessage e, rfl, uploadFileBody_err uenv hu e hb⟩
    · exact Or.inl (uploadFileBody_ok uenv r hb)
  · unfold downloadFile
    rcases hb : downloadFileBody denv with e | d
    · exact Or.inr ⟨rfl, jsMessage e, rfl, downloadFileBody_err denv hdl e hb⟩
    · exact Or.inl rfl

/-- C9 witness: the amended result shape at concrete environments whose
collaborator errors all carry non-empty messages. -/
theorem results_never_reject_witness :
    (downloadFile okZgEnv).success = true ∨
      ((downloadFile okZgEnv).success = false ∧
        ∃ m, (downloadFile okZgEnv).error = some m ∧ m ≠ "") :=
  (results_never_reject
    { signerPresent := false, sdkLoad := .ok (), getAddress := .ok (),
      merkle := .ok (none, none), getNetwork := .ok 16602,
      networkValidation := .ok (), upload := .ok {} }
    okZgEnv
    ⟨fun _ hm => Except.noConfusion hm, fun _ hm => Except.noConfusion hm,
      fun _ hm => Except.noConfusion hm, fun _ hm => Except.noConfusion hm⟩
    (fun _ hm => Except.noConfusion hm)).2

/-- C10 counterexample: a resolved record that CONTAINS an `iv` field holding
the empty string is NOT treated as encrypted — the published info carries
`isEncrypted = false`, no decryption key is demanded, and the fetch proceeds.
The decision is the JavaScript truthiness of `iv`, not field presence. -/
theorem iv_presence_cex :
    emptyIvRec.iv = some "" ∧
    (useFileDownloadRun emptyIvHookEnv "privshare://0g-aaaa-aaaa-aaaa-aaaa"
        none).info = some (buildDownloadInfo 0 emptyIvRec none) ∧
    (buildDownloadInfo 0 emptyIvRec none).isEncrypted = false ∧
    (useFileDownloadRun emptyIvHookEnv "privshare://0g-aaaa-aaaa-aaaa-aaaa"
        none).result
      ≠ .error (.err "This file is encrypted. Please provide the decryption key.") ∧
    Event.fetchData ∈
      (useFileDownloadRun emptyIvHookEnv "privshare://0g-aaaa-aaaa-aaaa-aaaa"
        none).trace :=
  ⟨rfl, by decide, by decide, by decide, by decide⟩

/-- C10 amended: the encrypted-file decision of the resolution path is exactly
the JavaScript truthiness of the resolved record's `iv` (present AND
non-empty): the published flag equals `jsTruthy rec.iv`; when the flag holds
and no key was supplied the run stops with the key-demand error BEFORE any
fetch (empty trace); otherwise the key-demand error is never raised; the
preview hook computes the same flag; and the decision depends on nothing but
`iv` — the resolved record type stores no encryption key. -/
theorem encrypted_iff_truthy_iv (env : HookEnv) (code : String)
    (rec : MappingRecord) (key : Option String)
    (hv : validateShareCode code = true) (hc : env.cache code = some rec) :
    ((useFileDownloadRun env code key).info
        = some (buildDownloadInfo env.now rec key)) ∧
    ((buildDownloadInfo env.now rec key).isEncrypted = jsTruthy rec.iv) ∧
    (jsTruthy rec.iv = true → jsTruthy key = false →
      useFileDownloadRun env code key =
        ⟨.error (.err "This file is encrypted. Please provide the decryption key."),
          some (buildDownloadInfo env.now rec key), []⟩) ∧
    (jsTruthy rec.iv = false ∨ jsTruthy key = true →
      (useFileDownloadRun env code key).result
        ≠ .error (.err "This file is encrypted. Please provide the decryption key.")) ∧
    (useFilePreviewRun env.cache env.now code
        = .ok (buildDownloadInfo env.now rec none)) ∧
    (∀ rec' : MappingRecord, rec'.iv = rec.iv →
      (buildDownloadInfo env.now rec' key).isEncrypted
        = (buildDownloadInfo env.now rec key).isEncrypted) := by
  have hres : useFileDownloadRun env code key
      = hookAfterResolve env (buildDownloadInfo env.now rec key) key := by
    unfold useFileDownloadRun
    simp [getMappingFrom0G, hv, hc]
  have hshape := hookAfterResolve_shape env (buildDownloadInfo env.now rec key) key
  refine ⟨?_, rfl, ?_, ?_, ?_, ?_⟩
  · rw [hres]
    exact hshape.1
  · intro hiv hk
    rw [hres]
    exact hshape.2.2.1 (by simp [buildDownloadInfo, hiv, hk])
  · intro hor
    rw [hres]
    refine hshape.2.2.2 ?_
    rcases hor with hiv | hk
    · simp [buildDownloadInfo, hiv]
    · simp [buildDownloadInfo, hk]
  · unfold useFilePreviewRun
    simp [getMappingFrom0G, hv, hc]
  · intro rec' hiv
    simp [buildDownloadInfo, hiv]

/-- C10 witness: the amended decision at a concrete encrypted record
(non-empty `iv`) with no key supplied: the run stops with the key demand and
an empty trace. -/
theorem encrypted_iff_truthy_iv_witness :
    useFileDownloadRun encHookEnv "privshare://0g-aaaa-aaaa-aaaa-aaaa" none =
      ⟨.error (.err "This file is encrypted. Please provide the decryption key."),
        some (buildDownloadInfo 0 encRec none), []⟩ := by
  have h := encrypted_iff_truthy_iv encHookEnv "privshare://0g-aaaa-aaaa-aaaa-aaaa"
    encRec none (by decide) rfl
  exact h.2.2.1 (by decide) (by decide)

end PrivShare
